import Mathlib

/-!
Shallow embedding of `fetch_linear_data.py` (Linear feature-requests dashboard
generator).  Python strings are modelled as `String` / `List Char`, Python
`None` as `Option.none`, Python dicts holding a fixed record shape as Lean
structures, timestamps handed to `datetime` as `Int` epoch values produced by
an explicit parse function.  Python's stable `sorted` (and the stable
`Array.prototype.sort` of the dashboard's JavaScript) are modelled by the
stable insertion sort `sortLe`; `collections.Counter` / JS count objects are
modelled by the insertion-ordered association list `counterList`.
-/

/-- ASCII whitespace, as matched by Python's `\s` and stripped by `str.strip`
on the ASCII inputs this pipeline handles. -/
def charWs (c : Char) : Bool :=
  c == ' ' || c == '\t' || c == '\n' || c == '\r' || c.toNat == 11 || c.toNat == 12

/-- Python `str.strip()`: drop whitespace from both ends. -/
def trimWs (l : List Char) : List Char :=
  ((l.dropWhile charWs).reverse.dropWhile charWs).reverse

/-- `pat` occurs at the head of `l`. -/
def startsWithB : List Char → List Char → Bool
  | [], _ => true
  | _ :: _, [] => false
  | a :: as, b :: bs => a == b && startsWithB as bs

/-- Python's substring test `pat in l`. -/
def hasSubstr (pat : List Char) : List Char → Bool
  | [] => startsWithB pat []
  | c :: rest => startsWithB pat (c :: rest) || hasSubstr pat rest

/-- Python `str.lower()` (ASCII). -/
def toLowerL (l : List Char) : List Char :=
  l.map Char.toLower

/-- Lexicographic `≤` on character lists by code point — Python's string
comparison. -/
def lexLeCh : List Char → List Char → Bool
  | [], _ => true
  | _ :: _, [] => false
  | a :: as, b :: bs =>
    if a.toNat < b.toNat then true
    else if b.toNat < a.toNat then false
    else lexLeCh as bs

/-- Python string `≤` (code-point lexicographic). -/
def strLeB (a b : String) : Bool :=
  lexLeCh a.data b.data

/-- Insert `a` into `l` before the first element `b` with `le a b` —
the insertion step of a stable sort. -/
def insLe (le : α → α → Bool) (a : α) : List α → List α
  | [] => [a]
  | b :: l => if le a b then a :: b :: l else b :: insLe le a l

/-- Stable insertion sort: the unique stable sort w.r.t. a total preorder,
hence the model of Python's `sorted` and of stable JS `Array.sort`. -/
def sortLe (le : α → α → Bool) : List α → List α
  | [] => []
  | a :: l => insLe le a (sortLe le l)

/-- One `Counter` increment: bump the existing key in place or append it. -/
def counterAdd (l : List (String × Nat)) (k : String) : List (String × Nat) :=
  match l with
  | [] => [(k, 1)]
  | (a, n) :: rest => if a = k then (a, n + 1) :: rest else (a, n) :: counterAdd rest k

/-- `collections.Counter` over a list of keys, as an association list in
first-encounter key order (Python dict insertion order). -/
def counterList (xs : List String) : List (String × Nat) :=
  xs.foldl counterAdd []

/-- Number of distinct elements (`len(set(...))`). -/
def distinctCount (xs : List String) : Nat :=
  (xs.foldl (fun acc x => if x ∈ acc then acc else x :: acc) []).length

/-- Python truthiness of an optional string: `None` and `""` are falsy. -/
def truthyOpt : Option String → Bool
  | none => false
  | some s => s ≠ ""

/-! ## Source-label classifier (`get_source_label`, fetch_linear_data.py:241-267) -/

/-- A Linear label record (`labels.nodes[i]`, carrying only `name`). -/
structure Label where
  name : String
  deriving DecidableEq, Repr

/-- The body of the `for label in label_names:` loop of `get_source_label`:
the if/elif keyword chain applied to one lower-cased label name.  `none`
means no branch fired for this label, so the loop moves to the next one. -/
def classifyLabel (label : List Char) : Option String :=
  if hasSubstr "zendesk".data label then some "zendesk"
  else if hasSubstr "csat".data label then some "CSAT"
  else if hasSubstr "sales".data label then some "sales"
  else if hasSubstr "partner success".data label || hasSubstr "partner-success".data label then
    some "partner success"
  else if hasSubstr "uxr".data label then some "UXR"
  else if ["email".data, "phone".data, "slack".data, "in person".data, "in-person".data].any
      (fun kw => hasSubstr kw label) then
    some "other"
  else none

/-- The loop of `get_source_label`: return on the first label any branch of
the chain accepts; fall through to `'unlabeled'`. -/
def sourceLabelLoop : List (List Char) → String
  | [] => "unlabeled"
  | l :: rest =>
    match classifyLabel l with
    | some v => v
    | none => sourceLabelLoop rest

/-- `get_source_label(labels)` (fetch_linear_data.py:241-267): `'unlabeled'`
for an empty label list, otherwise the loop over the lower-cased names. -/
def get_source_label (labels : List Label) : String :=
  match labels with
  | [] => "unlabeled"
  | _ => sourceLabelLoop (labels.map (fun l => toLowerL l.name.data))

/-! ## Field extractor (`parse_ticket`, fetch_linear_data.py:269-311)

Each Python regex used by `parse_ticket` starts with a literal marker such as
`**Customer:**`, so `re.search` amounts to: scan left to right for an
occurrence of the marker whose tail matches the rest of the pattern.
`searchWith tail marker s` is that scan; the `tail` functions below are the
per-pattern remainders. -/

/-- Leftmost-occurrence scan of `re.search` for a pattern `marker ⬝ tail`:
try every occurrence of the literal `marker`, left to right, returning the
first position where `tail` matches the remaining text. -/
def searchWith (tail : List Char → Option (List Char)) (marker : List Char) :
    List Char → Option (List Char)
  | [] => if startsWithB marker [] then tail [] else none
  | c :: rest =>
    if startsWithB marker (c :: rest) then
      match tail ((c :: rest).drop marker.length) with
      | some cap => some cap
      | none => searchWith tail marker rest
    else searchWith tail marker rest

/-- Tail `\s*([^\n]+)` with the greedy/backtracking semantics of `re`:
consume the maximal whitespace run; if a character remains it is non-blank,
and the capture runs to the next newline; otherwise back off inside the run
to the last character that is not a newline (a lone space or tab can satisfy
`[^\n]+`). -/
def lineCapture (t : List Char) : Option (List Char) :=
  let w := t.takeWhile charWs
  let r := t.dropWhile charWs
  match r with
  | _ :: _ => some (r.takeWhile (fun c => c ≠ '\n'))
  | [] =>
    match w.reverse.dropWhile (fun c => c = '\n') with
    | [] => none
    | c :: _ => some [c]

/-- Tail `\s*"([^"]*)"` of the primary quote pattern (the character class in
the source holds four literal ASCII `"` characters, i.e. the single character
`"`): after the whitespace run the next character must be a quote, and the
capture runs to the required closing quote. -/
def quoteCapture (t : List Char) : Option (List Char) :=
  let r := t.dropWhile charWs
  match r with
  | q :: r2 =>
    if q = '"' then
      let cap := r2.takeWhile (fun c => c ≠ '"')
      match r2.dropWhile (fun c => c ≠ '"') with
      | _ :: _ => some cap
      | [] => none
    else none
  | [] => none

/-- Scan step of the lazy `.+?` of the quote fallback pattern: extend the
capture one character at a time until the `(?=\n\n|\*\*|$)` lookahead holds. -/
def fbExtend : List Char → List Char
  | [] => []
  | c :: rest =>
    if startsWithB "\n\n".data (c :: rest) || startsWithB "**".data (c :: rest) then []
    else c :: fbExtend rest

/-- Tail `\s*(.+?)(?=\n\n|\*\*|$)` (DOTALL) of the quote fallback pattern:
the greedy whitespace run, then at least one arbitrary character, extended
lazily until the lookahead; on fully blank remaining text the run backs off
by one character so `.+?` can consume it. -/
def fbCapture (t : List Char) : Option (List Char) :=
  let w := t.takeWhile charWs
  let r := t.dropWhile charWs
  match r with
  | c :: rest => some (c :: fbExtend rest)
  | [] =>
    match w.reverse with
    | [] => none
    | c :: _ => some [c]

/-- Tail `\s*(Wave\s*)?(\d+)` of the survey-wave pattern, returning capture
group 2 (the digit run): the optional `Wave` prefix is taken greedily when it
leads to a digit; otherwise the digits must follow the whitespace run
directly. -/
def waveCapture (t : List Char) : Option (List Char) :=
  let r := t.dropWhile charWs
  if startsWithB "Wave".data r then
    let r2 := (r.drop 4).dropWhile charWs
    match r2.takeWhile Char.isDigit with
    | [] => none
    | d :: ds => some (d :: ds)
  else
    match r.takeWhile Char.isDigit with
    | [] => none
    | d :: ds => some (d :: ds)

/-- One attempt of the customer-sanitization pattern `\s*\([^)]*@[^)]*\)` at
the current position: a whitespace run, an opening parenthesis, a
parenthesis-free body containing `@`, and the closing parenthesis.  Returns
the text after the match. -/
def tryEmailParen (l : List Char) : Option (List Char) :=
  let r := l.dropWhile charWs
  match r with
  | '(' :: inner =>
    let body := inner.takeWhile (fun c => c ≠ ')')
    match inner.dropWhile (fun c => c ≠ ')') with
    | ')' :: after => if body.any (fun c => c = '@') then some after else none
    | _ => none
  | _ => none

/-- `re.sub(r'\s*\([^)]*@[^)]*\)', '', ·)`: left-to-right non-overlapping
replacement of every parenthesized email suffix by nothing.  The fuel
argument (initially the text length) makes the recursion structural; every
match consumes at least two characters, so the fuel never runs out. -/
def subEmailGo : Nat → List Char → List Char
  | 0, l => l
  | _ + 1, [] => []
  | f + 1, c :: rest =>
    match tryEmailParen (c :: rest) with
    | some after => subEmailGo f after
    | none => c :: subEmailGo f rest

/-- `re.sub(r'\s*\([^)]*@[^)]*\)', '', l)`. -/
def subEmail (l : List Char) : List Char :=
  subEmailGo l.length l

/-- One attempt of the markdown-link pattern `\[([^\]]+)\]\([^)]+\)` at the
current position: returns the link label (replacement text) and the text
after the match. -/
def tryMdLink (l : List Char) : Option (List Char × List Char) :=
  match l with
  | '[' :: inner =>
    let lab := inner.takeWhile (fun c => c ≠ ']')
    match lab, inner.dropWhile (fun c => c ≠ ']') with
    | _ :: _, ']' :: '(' :: inner2 =>
      let url := inner2.takeWhile (fun c => c ≠ ')')
      match url, inner2.dropWhile (fun c => c ≠ ')') with
      | _ :: _, ')' :: after => some (lab, after)
      | _, _ => none
    | _, _ => none
  | _ => none

/-- `re.sub(r'\[([^\]]+)\]\([^)]+\)', r'\1', ·)`: unwrap each markdown link
to its label; replacements are emitted, not rescanned.  Fuel as in
`subEmailGo`. -/
def subMdGo : Nat → List Char → List Char
  | 0, l => l
  | _ + 1, [] => []
  | f + 1, c :: rest =>
    match tryMdLink (c :: rest) with
    | some (lab, after) => lab ++ subMdGo f after
    | none => c :: subMdGo f rest

/-- `re.sub(r'\[([^\]]+)\]\([^)]+\)', r'\1', l)`. -/
def subMd (l : List Char) : List Char :=
  subMdGo l.length l

/-- Customer sanitization (fetch_linear_data.py:284-291), applied when the
customer pattern matched: strip, drop the parenthesized email, unwrap
markdown links, strip again. -/
def sanitizeCustomer (cap : List Char) : String :=
  String.mk (trimWs (subMd (subEmail (trimWs cap))))

/-! ## Source-type and feature-area classifiers (fetch_linear_data.py:297-356) -/

/-- The `source_type` keyword chain (fetch_linear_data.py:297-311), applied to
the extracted `source` text; an absent or falsy (empty) source keeps the
initial `"Unknown"`. -/
def sourceTypeOf (source : Option String) : String :=
  match source with
  | none => "Unknown"
  | some s =>
    if s = "" then "Unknown"
    else
      let sc := s.data
      if hasSubstr "CSAT".data sc || hasSubstr "Wave".data sc then "CSAT Survey"
      else if hasSubstr "Usage".data sc || hasSubstr "Satisfaction".data sc then "Usage Survey"
      else if hasSubstr "Early Adopter".data sc || hasSubstr "Qualitative Research".data sc then
        "Early Adopter Research"
      else if hasSubstr "Beta".data sc then "Beta Testing"
      else if hasSubstr "Support".data sc || hasSubstr "Email".data sc then "Direct Support"
      else if hasSubstr "Internal".data sc then "Internal"
      else "Unknown"

/-- The parent-epic keyword chain (fetch_linear_data.py:331-356) over the
lower-cased parent title; `none` when no branch fires, so the project-name
default stands. -/
def featureAreaOverride (pl : List Char) : Option String :=
  if hasSubstr "smart home".data pl || hasSubstr "homekit".data pl
      || hasSubstr "integration".data pl then some "Smart Home Integrations"
  else if hasSubstr "thermal".data pl || hasSubstr "comfort".data pl
      || hasSubstr "thermware".data pl then some "Thermals & Comfort"
  else if hasSubstr "schedule".data pl then some "Schedules"
  else if hasSubstr "app".data pl && hasSubstr "ux".data pl then some "All things App"
  else if hasSubstr "hardware".data pl then some "Hardware Requests"
  else if hasSubstr "dial".data pl then some "All things Dial"
  else if hasSubstr "energy".data pl || hasSubstr "usage".data pl then some "Energy + Usage"
  else if hasSubstr "auto-away".data pl || hasSubstr "away".data pl then some "Auto-Away"
  else if hasSubstr "mode".data pl || hasSubstr "control".data pl then some "Modes & Controls"
  else if hasSubstr "lighting".data pl || hasSubstr "light".data pl then some "Lighting"
  else if hasSubstr "device".data pl || hasSubstr "pairing".data pl then
    some "Device management & operation"
  else if hasSubstr "partner".data pl || hasSubstr "tooling".data pl then some "Partner Tooling"
  else none

/-- `feature_area = project_name or "Unknown"` (fetch_linear_data.py:328):
Python `or` treats an absent project and an empty name alike. -/
def featureDefault (projectName : Option String) : String :=
  match projectName with
  | none => "Unknown"
  | some p => if p = "" then "Unknown" else p

/-- The feature-area computation (fetch_linear_data.py:327-356): the
project-name default, overridden by the keyword chain when a truthy parent
title matches one of its rules. -/
def featureAreaOf (projectName : Option String) (parentTitle : Option String) : String :=
  match parentTitle with
  | none => featureDefault projectName
  | some t =>
    if t = "" then featureDefault projectName
    else
      match featureAreaOverride (toLowerL t.data) with
      | some v => v
      | none => featureDefault projectName

/-! ## Raw records and the record normalizer (`parse_ticket`) -/

/-- The `parent` sub-record of a raw issue (identifier + title snapshot). -/
structure RawParent where
  id : String
  identifier : String
  title : String
  deriving DecidableEq, Repr

/-- A raw issue record as returned by the GraphQL query (the fields
`parse_ticket` reads).  Fields read through `dict.get` with a default are
`Option`s; `labels` models `ticket.get('labels', {}).get('nodes', [])`
directly as the node list (absent ⇒ `[]`). -/
structure RawTicket where
  identifier : String
  title : String
  description : Option String
  stateName : String
  stateType : String
  priorityNum : Option Nat
  priorityLabel : Option String
  project : Option String
  parent : Option RawParent
  createdAt : String
  updatedAt : String
  completedAt : Option String
  labels : List Label
  deriving DecidableEq, Repr

/-- The normalized ticket dict built by `parse_ticket`
(fetch_linear_data.py:364-387). -/
structure Ticket where
  ticket_id : String
  title : String
  project : String
  epic : String
  epic_id : String
  parent_id : Option String
  feature_area : String
  customer : Option String
  wave : Option String
  source_type : String
  source_detail : Option String
  source_label : String
  priority : String
  priority_value : Nat
  quote : String
  status : String
  state_type : String
  created_at : String
  updated_at : String
  completed_at : Option String
  has_customer_feedback : Bool
  url : String
  deriving DecidableEq, Repr

/-- `parse_ticket(ticket, all_issues)` (fetch_linear_data.py:269-387): field
extraction from the description, customer sanitization, the two classifier
chains, and assembly of the normalized record.  (The `all_issues` argument is
unused in the source.) -/
def parse_ticket (t : RawTicket) : Ticket :=
  let description := (t.description.getD "").data
  let customer_match := searchWith lineCapture "**Customer:**".data description
  let quote_match :=
    match searchWith quoteCapture "**Quote:**".data description with
    | some c => some c
    | none => searchWith fbCapture "**Quote:**".data description
  let wave_match := searchWith waveCapture "**Survey Wave:**".data description
  let source_match := searchWith lineCapture "**Source:**".data description
  let customer := customer_match.map sanitizeCustomer
  let quote :=
    match quote_match with
    | some c => String.mk (trimWs c)
    | none => ""
  let wave := wave_match.map (fun d => "Wave " ++ String.mk d)
  let source := source_match.map (fun c => String.mk (trimWs c))
  let source_type := sourceTypeOf source
  let project_name := t.project
  let feature_area := featureAreaOf project_name (t.parent.map (·.title))
  let source_label := get_source_label t.labels
  let priority_value := t.priorityNum.getD 0
  { ticket_id := t.identifier
    title := t.title
    project :=
      match project_name with
      | some p => if p = "" then "No Project" else p
      | none => "No Project"
    epic :=
      match t.parent with
      | some p =>
        if p.identifier ≠ "" ∧ p.title ≠ "" then p.identifier ++ ": " ++ p.title else "No Epic"
      | none => "No Epic"
    epic_id := (t.parent.map (·.identifier)).getD ""
    parent_id := t.parent.map (·.id)
    feature_area := feature_area
    customer := customer
    wave := wave
    source_type := source_type
    source_detail := source
    source_label := source_label
    priority := t.priorityLabel.getD "No Priority"
    priority_value := priority_value
    quote := if quote = "" then "" else String.mk (quote.data.take 500)
    status := t.stateName
    state_type := t.stateType
    created_at := t.createdAt
    updated_at := t.updatedAt
    completed_at := t.completedAt
    has_customer_feedback := customer.isSome
    url := "https://linear.app/quiltair/issue/" ++ t.identifier }

/-! ## View aggregator (`generate_statistics`, fetch_linear_data.py:455-480,
and the dashboard sections of `generate_html_dashboard`,
fetch_linear_data.py:482-537) -/

/-- The statistics dict built by `generate_statistics`; the five grouped
counts are insertion-ordered association lists (Python dicts). -/
structure Stats where
  total_tickets : Nat
  unique_customers : Nat
  by_feature_area : List (String × Nat)
  by_source_label : List (String × Nat)
  by_wave : List (String × Nat)
  by_source_type : List (String × Nat)
  by_priority : List (String × Nat)
  deriving DecidableEq, Repr

/-- Descending-by-count comparison used for
`sorted(..., key=lambda x: x[1], reverse=True)` (stable). -/
def descCount (a b : String × Nat) : Bool :=
  b.2 ≤ a.2

/-- `generate_statistics(all_tickets)` (fetch_linear_data.py:455-480): the
customer-attributed subset feeds every group but `by_feature_area`, which
ranges over all tickets and is the only one re-sorted by count. -/
def generate_statistics (all_tickets : List Ticket) : Stats :=
  let customer_tickets := all_tickets.filter (fun t => t.has_customer_feedback)
  { total_tickets := customer_tickets.length
    unique_customers :=
      distinctCount (customer_tickets.filterMap
        (fun t => if truthyOpt t.customer then t.customer else none))
    by_feature_area :=
      sortLe descCount (counterList (all_tickets.map (fun t => t.feature_area)))
    by_source_label := counterList (customer_tickets.map (fun t => t.source_label))
    by_wave :=
      counterList (customer_tickets.filterMap
        (fun t => if truthyOpt t.wave then t.wave else none))
    by_source_type := counterList (customer_tickets.map (fun t => t.source_type))
    by_priority := counterList (customer_tickets.map (fun t => t.priority)) }

/-- The active statuses of Section 2 (fetch_linear_data.py:496). -/
def activeStatuses : List String :=
  ["In Progress", "Todo", "In Review"]

/-- The per-ticket test of the Work in Queue loop
(fetch_linear_data.py:500-514).  `parse` stands for
`datetime.fromisoformat(s.replace('Z','+00:00'))` reduced to an epoch `Int`
(`none` = the `except (ValueError, TypeError)` skip); `sevenDaysAgo` is the
run-time cutoff `datetime.now() - timedelta(days=7)`. -/
def keepInQueue (parse : String → Option Int) (sevenDaysAgo : Int) (t : Ticket) : Bool :=
  if activeStatuses.contains t.status then true
  else if t.status = "Done" && truthyOpt t.completed_at then
    match parse (t.completed_at.getD "") with
    | some d => sevenDaysAgo ≤ d
    | none => false
  else false

/-- `status_order.get(x['status'], 999)` (fetch_linear_data.py:517). -/
def statusOrder (s : String) : Nat :=
  if s = "In Progress" then 0
  else if s = "Todo" then 1
  else if s = "In Review" then 2
  else if s = "Done" then 3
  else 999

/-- Sort comparison of the Work in Queue view: status rank, then
`updated_at` descending (the negated timestamp of fetch_linear_data.py:521;
on tickets whose `updated_at` does not parse the Python sort key raises,
which is outside the modelled domain — such a timestamp is ranked 0 here). -/
def queueLe (parse : String → Option Int) (a b : Ticket) : Bool :=
  let ka := statusOrder a.status
  let kb := statusOrder b.status
  if ka < kb then true
  else if kb < ka then false
  else (parse b.updated_at).getD 0 ≤ (parse a.updated_at).getD 0

/-- Section 2, Work in Queue (fetch_linear_data.py:499-523): the filter loop
followed by the stable status-rank/recency sort. -/
def activeQueue (parse : String → Option Int) (sevenDaysAgo : Int)
    (all_tickets : List Ticket) : List Ticket :=
  sortLe (queueLe parse) (all_tickets.filter (keepInQueue parse sevenDaysAgo))

/-- `created_at` descending, ties stable — the key of
`sorted(all_tickets, key=lambda x: x['created_at'], reverse=True)`
(fetch_linear_data.py:526); Python compares the ISO strings directly. -/
def createdDesc (a b : Ticket) : Bool :=
  strLeB b.created_at a.created_at

/-- Section 3, Recent Tickets (fetch_linear_data.py:526): all tickets by
`created_at` descending, capped at 10. -/
def recentTickets (all_tickets : List Ticket) : List Ticket :=
  (sortLe createdDesc all_tickets).take 10

/-! ## JSON export and the Interactive Filter Engine
(`generate_json`, fetch_linear_data.py:413-453, and the `updateChart` script
of the dashboard, fetch_linear_data.py:804-875) -/

/-- One entry of the `issues` array of `data.json`
(fetch_linear_data.py:428-447). -/
structure Issue where
  id : String
  title : String
  url : String
  createdAt : String
  updatedAt : String
  completedAt : Option String
  customer : Option String
  wave : Option String
  project : String
  featureArea : String
  sourceLabel : String
  priority : String
  priorityValue : Nat
  state : String
  stateType : String
  deriving DecidableEq, Repr

/-- The `issues` array written by `generate_json` (fetch_linear_data.py:428-447). -/
def generateJsonIssues (tickets : List Ticket) : List Issue :=
  tickets.map (fun t =>
    { id := t.ticket_id
      title := t.title
      url := t.url
      createdAt := t.created_at
      updatedAt := t.updated_at
      completedAt := t.completed_at
      customer := t.customer
      wave := t.wave
      project := t.project
      featureArea := t.feature_area
      sourceLabel := t.source_label
      priority := t.priority
      priorityValue := t.priority_value
      state := t.status
      stateType := t.state_type })

/-- JavaScript `a || b` on strings (`""` is falsy). -/
def jsOrStr (a b : String) : String :=
  if a = "" then b else a

/-- The `updateChart` computation of the dashboard script
(fetch_linear_data.py:804-839): filter by the two selectors, count by
`issue.featureArea || 'Unknown'` into an insertion-ordered object, and sort
the entries by count descending (`.sort((a, b) => b[1] - a[1])`, stable in
ES2019+ engines).  `createdWithin` stands for the browser-clock test
`new Date(issue.createdAt) >= cutoffDate`, evaluated only when the time
selector is not `"all"`; the ECMAScript reordering of integer-like object
keys is not modelled (feature areas are never integer-like). -/
def updateChartCounts (timeFilter sourceFilter : String)
    (createdWithin : String → Bool) (issues : List Issue) : List (String × Nat) :=
  let filteredIssues := issues.filter (fun i =>
    (if timeFilter ≠ "all" then createdWithin i.createdAt else true) &&
    (if sourceFilter ≠ "all" then i.sourceLabel = sourceFilter else true))
  let featureAreaCounts :=
    counterList (filteredIssues.map (fun i => jsOrStr i.featureArea "Unknown"))
  sortLe descCount featureAreaCounts

/-! ## Paginated fetcher loop (`fetch_linear_issues`, fetch_linear_data.py:128-229) -/

/-- The pagination loop of `fetch_linear_issues`, counting page requests.
`hasNext k` is the `pageInfo.hasNextPage` flag of the `k`-th request.  One
iteration: issue request `page`, increment `page`, break when the new value
exceeds 20 (the safety ceiling, fetch_linear_data.py:227), otherwise loop
while `has_more`.  The fuel argument (`21 - page` throughout) makes the
recursion structural; the ceiling check fires before the fuel can run out. -/
def fetchGo (hasNext : Nat → Bool) : Nat → Nat → Nat
  | _, 0 => 0
  | page, f + 1 =>
    1 + (if page + 1 > 20 then 0 else if hasNext page then fetchGo hasNext (page + 1) f else 0)

/-- Total number of page requests issued by `fetch_linear_issues` against a
source whose `k`-th response reports `hasNextPage = hasNext k`. -/
def pagesIssued (hasNext : Nat → Bool) : Nat :=
  fetchGo hasNext 1 20

/-! ## Concrete sample records used by counterexamples and witnesses -/

/-- A minimal raw record (no description, no project, no parent, no labels). -/
def sampleRaw : RawTicket :=
  { identifier := "QUI-1"
    title := "Sample ticket"
    description := none
    stateName := "Backlog"
    stateType := "backlog"
    priorityNum := some 0
    priorityLabel := some "No Priority"
    project := none
    parent := none
    createdAt := "2025-01-01T00:00:00.000Z"
    updatedAt := "2025-01-02T00:00:00.000Z"
    completedAt := none
    labels := [] }

/-- The worked example of the spec (section 8): a fully structured
description with customer, straight-quoted testimonial, survey wave and
source line. -/
def rawSpecExample : RawTicket :=
  { sampleRaw with
    description :=
      some "**Customer:** Jane Doe (jane@x.com)\n**Quote:** \"Great product\"\n**Survey Wave:** Wave 2\n**Source:** CSAT Q2" }

/-- A description whose customer line is only a parenthesized email. -/
def rawEmailOnly : RawTicket :=
  { sampleRaw with description := some "**Customer:** (jane@x.com)" }

/-- Baseline normalized ticket for building concrete aggregator inputs. -/
def sampleTicket : Ticket :=
  parse_ticket sampleRaw

/-- A constant-false stand-in for the browser-clock window test (unused when
the time selector is `"all"`). -/
def cwFalse : String → Bool :=
  fun _ => false

/-- A date parser that fails on every string (every record's
`completed_at` raises in `fromisoformat`). -/
def parseNone : String → Option Int :=
  fun _ => none

/-- A source that reports `hasNextPage = true` on pages 1 and 2 and `false`
on page 3. -/
def hasNext3 : Nat → Bool :=
  fun k => decide (k < 3)

/-- Three customer-attributed tickets whose source labels arrive in the
order sales, zendesk, zendesk. -/
def tsMixedLabels : List Ticket :=
  [{ sampleTicket with has_customer_feedback := true, source_label := "sales" },
   { sampleTicket with has_customer_feedback := true, source_label := "zendesk", ticket_id := "QUI-2" },
   { sampleTicket with has_customer_feedback := true, source_label := "zendesk", ticket_id := "QUI-3" }]

/-- Two tickets with distinct nonempty feature areas. -/
def tsPair : List Ticket :=
  [{ sampleTicket with feature_area := "A" },
   { sampleTicket with feature_area := "B", ticket_id := "QUI-2" }]

/-- A ticket currently being worked. -/
def tInProgress : Ticket :=
  { sampleTicket with status := "In Progress" }

/-- A raw record with both a project and a parent epic whose title matches
the thermal keyword rule. -/
def rawParented : RawTicket :=
  { sampleRaw with
    project := some "Some Project"
    parent := some { id := "pid", identifier := "QUI-9", title := "Thermal comfort epic" } }

/-! ## Helper lemmas -/

theorem insLe_perm (le : α → α → Bool) (a : α) (l : List α) :
    (insLe le a l).Perm (a :: l) := by
  induction l with
  | nil => simp [insLe]
  | cons b l ih =>
    simp only [insLe]
    split
    · exact List.Perm.refl _
    · exact (List.Perm.cons b ih).trans (List.Perm.swap a b l)

theorem sortLe_perm (le : α → α → Bool) (l : List α) :
    (sortLe le l).Perm l := by
  induction l with
  | nil => simp [sortLe]
  | cons a l ih =>
    exact (insLe_perm le a (sortLe le l)).trans (List.Perm.cons a ih)

theorem mem_sortLe (le : α → α → Bool) (l : List α) (x : α) :
    x ∈ sortLe le l ↔ x ∈ l :=
  (sortLe_perm le l).mem_iff

theorem insLe_pairwise (le : α → α → Bool)
    (htot : ∀ a b, le a b = true ∨ le b a = true)
    (htrans : ∀ a b c, le a b = true → le b c = true → le a c = true)
    (a : α) (l : List α) (hl : l.Pairwise (fun x y => le x y = true)) :
    (insLe le a l).Pairwise (fun x y => le x y = true) := by
  induction l with
  | nil => simp [insLe]
  | cons b l ih =>
    rcases hl with _ | ⟨hb, hl⟩
    simp only [insLe]
    split
    · rename_i hab
      refine List.Pairwise.cons ?_ (List.Pairwise.cons hb hl)
      intro x hx
      rcases List.mem_cons.mp hx with rfl | hx
      · exact hab
      · exact htrans a b x hab (hb x hx)
    · rename_i hab
      have hba : le b a = true := by
        rcases htot a b with h | h
        · exact absurd h hab
        · exact h
      refine List.Pairwise.cons ?_ (ih hl)
      intro x hx
      have hx' : x ∈ a :: l := (insLe_perm le a l).mem_iff.mp hx
      rcases List.mem_cons.mp hx' with rfl | hx'
      · exact hba
      · exact hb x hx'

theorem sortLe_pairwise (le : α → α → Bool)
    (htot : ∀ a b, le a b = true ∨ le b a = true)
    (htrans : ∀ a b c, le a b = true → le b c = true → le a c = true)
    (l : List α) :
    (sortLe le l).Pairwise (fun x y => le x y = true) := by
  induction l with
  | nil => simp [sortLe]
  | cons a l ih => exact insLe_pairwise le htot htrans a (sortLe le l) ih

theorem descCount_total (a b : String × Nat) :
    descCount a b = true ∨ descCount b a = true := by
  simp only [descCount, decide_eq_true_eq]
  omega

theorem descCount_trans (a b c : String × Nat) :
    descCount a b = true → descCount b c = true → descCount a c = true := by
  simp only [descCount, decide_eq_true_eq]
  omega

theorem lexLeCh_total (a b : List Char) :
    lexLeCh a b = true ∨ lexLeCh b a = true := by
  induction a generalizing b with
  | nil => left; simp [lexLeCh]
  | cons x xs ih =>
    cases b with
    | nil => right; simp [lexLeCh]
    | cons y ys =>
      simp only [lexLeCh]
      rcases Nat.lt_trichotomy x.toNat y.toNat with h | h | h
      · left; simp [h]
      · have h1 : ¬ x.toNat < y.toNat := by omega
        have h2 : ¬ y.toNat < x.toNat := by omega
        simpa [h1, h2] using ih ys
      · right; simp [h]

theorem lexLeCh_trans (a b c : List Char) :
    lexLeCh a b = true → lexLeCh b c = true → lexLeCh a c = true := by
  induction a generalizing b c with
  | nil => intro _ _; simp [lexLeCh]
  | cons x xs ih =>
    cases b with
    | nil => intro h; simp [lexLeCh] at h
    | cons y ys =>
      cases c with
      | nil => intro _ h; simp [lexLeCh] at h
      | cons z zs =>
        simp only [lexLeCh]
        intro hab hbc
        rcases Nat.lt_trichotomy x.toNat y.toNat with hxy | hxy | hxy
        · rcases Nat.lt_trichotomy y.toNat z.toNat with hyz | hyz | hyz
          · simp [show x.toNat < z.toNat by omega]
          · simp [show x.toNat < z.toNat by omega]
          · rw [if_neg (by omega), if_pos hyz] at hbc
            exact absurd hbc (by simp)
        · rcases Nat.lt_trichotomy y.toNat z.toNat with hyz | hyz | hyz
          · simp [show x.toNat < z.toNat by omega]
          · rw [if_neg (by omega : ¬ x.toNat < y.toNat), if_neg (by omega : ¬ y.toNat < x.toNat)]
              at hab
            rw [if_neg (by omega : ¬ y.toNat < z.toNat), if_neg (by omega : ¬ z.toNat < y.toNat)]
              at hbc
            rw [if_neg (by omega : ¬ x.toNat < z.toNat), if_neg (by omega : ¬ z.toNat < x.toNat)]
            exact ih ys zs hab hbc
          · rw [if_neg (by omega), if_pos hyz] at hbc
            exact absurd hbc (by simp)
        · rw [if_neg (by omega), if_pos hxy] at hab
          exact absurd hab (by simp)

theorem createdDesc_total (a b : Ticket) :
    createdDesc a b = true ∨ createdDesc b a = true := by
  simp only [createdDesc, strLeB]
  rcases lexLeCh_total a.created_at.data b.created_at.data with h | h
  · right; exact h
  · left; exact h

theorem createdDesc_trans (a b c : Ticket) :
    createdDesc a b = true → createdDesc b c = true → createdDesc a c = true := by
  simp only [createdDesc, strLeB]
  intro h1 h2
  exact lexLeCh_trans _ _ _ h2 h1

theorem sourceLabelLoop_of_all_none (ls : List (List Char))
    (h : ∀ l ∈ ls, classifyLabel l = none) :
    sourceLabelLoop ls = "unlabeled" := by
  induction ls with
  | nil => rfl
  | cons l rest ih =>
    have hl := h l (List.mem_cons_self l rest)
    simp only [sourceLabelLoop, hl]
    exact ih (fun x hx => h x (List.mem_cons_of_mem l hx))

theorem sourceLabelLoop_of_agree (ls : List (List Char)) (v : String)
    (hex : ∃ l ∈ ls, classifyLabel l = some v)
    (hall : ∀ l ∈ ls, classifyLabel l = none ∨ classifyLabel l = some v) :
    sourceLabelLoop ls = v := by
  induction ls with
  | nil => rcases hex with ⟨l, hl, _⟩; cases hl
  | cons l rest ih =>
    cases hc : classifyLabel l with
    | some w =>
      have := hall l (List.mem_cons_self l rest)
      rw [hc] at this
      rcases this with h | h
      · cases h
      · simp only [sourceLabelLoop, hc]
        exact (Option.some.injEq _ _).mp h
    | none =>
      simp only [sourceLabelLoop, hc]
      refine ih ?_ (fun x hx => hall x (List.mem_cons_of_mem l hx))
      rcases hex with ⟨x, hx, hxv⟩
      rcases List.mem_cons.mp hx with rfl | hx
      · rw [hc] at hxv; cases hxv
      · exact ⟨x, hx, hxv⟩

theorem get_source_label_eq_loop (labels : List Label) :
    get_source_label labels =
      sourceLabelLoop (labels.map (fun l => toLowerL l.name.data)) := by
  cases labels <;> rfl

/-- C1 (counterexample): the two orderings of the label set
{"sales", "zendesk"} are a permutation of one another, yet
`get_source_label` classifies the first as `"sales"` and the second as
`"zendesk"` — the classification is not order-independent. -/
theorem get_source_label_perm_counterexample :
    ([Label.mk "sales", Label.mk "zendesk"] : List Label).Perm
      [Label.mk "zendesk", Label.mk "sales"] ∧
    get_source_label [Label.mk "sales", Label.mk "zendesk"] = "sales" ∧
    get_source_label [Label.mk "zendesk", Label.mk "sales"] = "zendesk" :=
  ⟨List.Perm.swap _ _ _, by decide, by decide⟩

/-- C1 (amended): `get_source_label` returns the classification of the first
label, in input order, that any keyword rule accepts, so it is
order-independent only on label lists whose rule-matching labels all agree on
one classification `v`; under that agreement hypothesis every permutation of
the list yields the same source label. -/
theorem get_source_label_perm_of_agree (l₁ l₂ : List Label) (v : String)
    (hperm : l₁.Perm l₂)
    (hall : ∀ lab ∈ l₁, classifyLabel (toLowerL lab.name.data) = none ∨
      classifyLabel (toLowerL lab.name.data) = some v) :
    get_source_label l₁ = get_source_label l₂ := by
  rw [get_source_label_eq_loop, get_source_label_eq_loop]
  by_cases hex : ∃ lab ∈ l₁, classifyLabel (toLowerL lab.name.data) = some v
  · rcases hex with ⟨lab, hlab, hv⟩
    have h1 : sourceLabelLoop (l₁.map (fun l => toLowerL l.name.data)) = v := by
      refine sourceLabelLoop_of_agree _ v
        ⟨toLowerL lab.name.data,
          List.mem_map_of_mem (fun l : Label => toLowerL l.name.data) hlab, hv⟩ ?_
      intro x hx
      rcases List.mem_map.mp hx with ⟨la, hla, rfl⟩
      exact hall la hla
    have h2 : sourceLabelLoop (l₂.map (fun l => toLowerL l.name.data)) = v := by
      refine sourceLabelLoop_of_agree _ v
        ⟨toLowerL lab.name.data,
          List.mem_map_of_mem (fun l : Label => toLowerL l.name.data) (hperm.subset hlab), hv⟩ ?_
      intro x hx
      rcases List.mem_map.mp hx with ⟨la, hla, rfl⟩
      exact hall la (hperm.symm.subset hla)
    rw [h1, h2]
  · push_neg at hex
    have h1 : sourceLabelLoop (l₁.map (fun l => toLowerL l.name.data)) = "unlabeled" := by
      refine sourceLabelLoop_of_all_none _ ?_
      intro x hx
      rcases List.mem_map.mp hx with ⟨la, hla, rfl⟩
      rcases hall la hla with h | h
      · exact h
      · exact absurd h (hex la hla)
    have h2 : sourceLabelLoop (l₂.map (fun l => toLowerL l.name.data)) = "unlabeled" := by
      refine sourceLabelLoop_of_all_none _ ?_
      intro x hx
      rcases List.mem_map.mp hx with ⟨la, hla, rfl⟩
      rcases hall la (hperm.symm.subset hla) with h | h
      · exact h
      · exact absurd h (hex la (hperm.symm.subset hla))
    rw [h1, h2]

/-- C1 (witness): the agreement hypothesis holds for the label set
{"extra", "CSAT-q2"} (only the second label classifies, to `"CSAT"`), and the
amended theorem equates the two orderings. -/
theorem get_source_label_perm_of_agree_witness :
    get_source_label [Label.mk "extra", Label.mk "CSAT-q2"] =
      get_source_label [Label.mk "CSAT-q2", Label.mk "extra"] :=
  get_source_label_perm_of_agree _ _ "CSAT" (List.Perm.swap _ _ _) (by decide)

/-- C2 (counterexample): on three customer-attributed tickets whose source
labels arrive as sales, zendesk, zendesk, `generate_statistics` yields
`by_source_label = [("sales", 1), ("zendesk", 2)]` — first-encounter order,
not descending by count — so not all five grouped counts are descending. -/
theorem generate_statistics_desc_counterexample :
    ¬ ((generate_statistics tsMixedLabels).by_source_label).Pairwise
      (fun a b => b.2 ≤ a.2) := by decide

/-- C2 (amended): of the five grouped-count mappings produced by
`generate_statistics`, `by_feature_area` (the only one the source re-sorts)
lists its entries in descending order of count; the remaining four keep
`Counter` first-encounter order and need not be descending. -/
theorem by_feature_area_desc (all_tickets : List Ticket) :
    ((generate_statistics all_tickets).by_feature_area).Pairwise
      (fun a b => b.2 ≤ a.2) := by
  have h := sortLe_pairwise descCount descCount_total descCount_trans
    (counterList (all_tickets.map (fun t => t.feature_area)))
  have heq : (generate_statistics all_tickets).by_feature_area =
      sortLe descCount (counterList (all_tickets.map (fun t => t.feature_area))) := rfl
  rw [heq]
  refine h.imp ?_
  intro a b hab
  simpa [descCount, decide_eq_true_eq] using hab

/-- C3: with the time selector and the source selector both `"all"`, the
feature-area → count table computed by the dashboard's `updateChart` over the
exported issues equals the server-computed `by_feature_area` grouped counts
of `generate_statistics` over all normalized tickets (feature areas are never
empty, so the client-side `|| 'Unknown'` fallback is inert). -/
theorem updateChart_all_matches_stats (cw : String → Bool) (tickets : List Ticket)
    (h : ∀ t ∈ tickets, t.feature_area ≠ "") :
    updateChartCounts "all" "all" cw (generateJsonIssues tickets) =
      (generate_statistics tickets).by_feature_area := by
  have hfilter :
      (generateJsonIssues tickets).filter (fun i =>
        (if ("all" : String) ≠ "all" then cw i.createdAt else true) &&
        (if ("all" : String) ≠ "all" then i.sourceLabel = "all" else true)) =
      generateJsonIssues tickets := by
    simp
  have hmap :
      (generateJsonIssues tickets).map (fun i => jsOrStr i.featureArea "Unknown") =
      tickets.map (fun t => t.feature_area) := by
    unfold generateJsonIssues
    rw [List.map_map]
    refine List.map_congr_left ?_
    intro t ht
    simp only [Function.comp]
    rw [jsOrStr, if_neg (h t ht)]
  show sortLe descCount (counterList (((generateJsonIssues tickets).filter _).map
      (fun i => jsOrStr i.featureArea "Unknown"))) = _
  rw [hfilter, hmap]
  rfl

/-- C3 (witness): the cross-check equality instantiated on two concrete
tickets with nonempty feature areas. -/
theorem updateChart_all_matches_stats_witness :
    (∀ t ∈ tsPair, t.feature_area ≠ "") ∧
    updateChartCounts "all" "all" cwFalse (generateJsonIssues tsPair) =
      (generate_statistics tsPair).by_feature_area :=
  ⟨by decide, updateChart_all_matches_stats cwFalse tsPair (by decide)⟩

/-- C4: a normalized ticket appears in the Work in Queue view iff its status
is one of {In Progress, Todo, In Review} (timestamps ignored), or its status
is Done with a truthy `completed_at` that parses to a date within the last
7 days; a Done ticket whose `completed_at` fails to parse is excluded from
this view only — the dataset itself is untouched by the filter. -/
theorem activeQueue_mem_iff (parse : String → Option Int) (sevenDaysAgo : Int)
    (all_tickets : List Ticket) (t : Ticket) (ht : t ∈ all_tickets) :
    t ∈ activeQueue parse sevenDaysAgo all_tickets ↔
      (t.status ∈ activeStatuses ∨
        (t.status = "Done" ∧ ∃ s, t.completed_at = some s ∧ s ≠ "" ∧
          ∃ d, parse s = some d ∧ sevenDaysAgo ≤ d)) := by
  unfold activeQueue
  rw [mem_sortLe, List.mem_filter]
  have hmem : t ∈ all_tickets ∧ keepInQueue parse sevenDaysAgo t = true ↔
      keepInQueue parse sevenDaysAgo t = true :=
    ⟨fun h => h.2, fun h => ⟨ht, h⟩⟩
  rw [hmem]
  unfold keepInQueue
  by_cases hc : t.status ∈ activeStatuses
  · have hcb : activeStatuses.contains t.status = true := List.elem_iff.mpr hc
    simp [hcb, hc]
  · have hcb : activeStatuses.contains t.status = false := by
      rw [Bool.eq_false_iff]
      intro hcon
      exact hc (List.elem_iff.mp hcon)
    rw [hcb]
    simp only [Bool.false_eq_true, if_false]
    have hdne : ("Done" : String) ∉ activeStatuses := by decide
    by_cases hd : t.status = "Done"
    · cases hs : t.completed_at with
      | none => simp [truthyOpt, hs, hc, hd, hdne]
      | some s =>
        by_cases hse : s = ""
        · simp [truthyOpt, hs, hse, hc, hd, hdne]
        · cases hp : parse s with
          | none => simp [truthyOpt, hs, hse, hc, hd, hdne, hp]
          | some d => simp [truthyOpt, hs, hse, hc, hd, hdne, hp, decide_eq_true_eq]
    · simp [hc, hd]

/-- C4 (witness): a ticket in status "In Progress" is in the view even
though every date fails to parse. -/
theorem activeQueue_mem_iff_witness :
    tInProgress ∈ activeQueue parseNone 0 [tInProgress] :=
  (activeQueue_mem_iff parseNone 0 [tInProgress] tInProgress
    (List.mem_singleton.mpr rfl)).mpr (Or.inl (by decide))

theorem fetchGo_le (hasNext : Nat → Bool) (f p : Nat) :
    fetchGo hasNext p f ≤ f := by
  induction f generalizing p with
  | zero => simp [fetchGo]
  | succ f ih =>
    simp only [fetchGo]
    have h : (if p + 1 > 20 then 0
        else if hasNext p then fetchGo hasNext (p + 1) f else 0) ≤ f := by
      split
      · omega
      · split
        · exact ih (p + 1)
        · omega
    omega

theorem fetchGo_exact (hasNext : Nat → Bool) (n : Nat) (hn1 : 1 ≤ n) (hn20 : n ≤ 20)
    (hnext : ∀ k, 1 ≤ k → k < n → hasNext k = true) (hlast : hasNext n = false) :
    ∀ f p, p + f = 21 → 1 ≤ p → p ≤ n → fetchGo hasNext p f = n + 1 - p := by
  intro f
  induction f with
  | zero =>
    intro p hpf _ hpn
    exfalso
    omega
  | succ f ih =>
    intro p hpf hp1 hpn
    simp only [fetchGo]
    by_cases hpn' : p = n
    · subst hpn'
      rw [hlast]
      split
      · omega
      · simp only [Bool.false_eq_true, if_false]
        omega
    · have hplt : p < n := by omega
      have hnp : hasNext p = true := hnext p hp1 hplt
      rw [if_neg (by omega : ¬ p + 1 > 20), hnp, if_pos rfl]
      rw [ih (p + 1) (by omega) (by omega) (by omega)]
      omega

/-- C5: the pagination loop of `fetch_linear_issues` issues at most 20 page
requests for every source; and when the source reports `hasNextPage = false`
on page `n` with `n ≤ 20` (having reported `true` on every earlier page),
exactly `n` requests are issued — the ceiling only truncates runs that would
exceed it. -/
theorem pagesIssued_spec (hasNext : Nat → Bool) :
    pagesIssued hasNext ≤ 20 ∧
    ∀ n, 1 ≤ n → n ≤ 20 → (∀ k, 1 ≤ k → k < n → hasNext k = true) →
      hasNext n = false → pagesIssued hasNext = n := by
  constructor
  · exact fetchGo_le hasNext 20 1
  · intro n hn1 hn20 hnext hlast
    have h := fetchGo_exact hasNext n hn1 hn20 hnext hlast 20 1 rfl (by omega) hn1
    rw [pagesIssued, h]
    omega

/-- C5 (witness): a source with `hasNextPage=false` on page 3 receives
exactly 3 page requests, within the ceiling. -/
theorem pagesIssued_spec_witness :
    pagesIssued hasNext3 = 3 ∧ pagesIssued hasNext3 ≤ 20 :=
  ⟨(pagesIssued_spec hasNext3).2 3 (by decide) (by decide)
      (fun k _ hk => by simp only [hasNext3, decide_eq_true_eq]; omega) (by decide),
    (pagesIssued_spec hasNext3).1⟩

/-- C6: on the spec's worked example description, `parse_ticket` extracts
customer "Jane Doe" (email stripped), quote "Great product" (quotes
stripped), wave "Wave 2" and source type "CSAT Survey". -/
theorem parse_ticket_spec_example :
    (parse_ticket rawSpecExample).customer = some "Jane Doe" ∧
    (parse_ticket rawSpecExample).quote = "Great product" ∧
    (parse_ticket rawSpecExample).wave = some "Wave 2" ∧
    (parse_ticket rawSpecExample).source_type = "CSAT Survey" := by
  refine ⟨?_, ?_, ?_, ?_⟩ <;> decide

theorem featureAreaOverride_ne_empty (pl : List Char) (v : String)
    (h : featureAreaOverride pl = some v) : v ≠ "" := by
  unfold featureAreaOverride at h
  by_cases h1 : (hasSubstr "smart home".data pl || hasSubstr "homekit".data pl || hasSubstr "integration".data pl) = true
  · rw [if_pos h1] at h; injection h with h; subst h; decide
  · rw [if_neg h1] at h
    by_cases h2 : (hasSubstr "thermal".data pl || hasSubstr "comfort".data pl || hasSubstr "thermware".data pl) = true
    · rw [if_pos h2] at h; injection h with h; subst h; decide
    · rw [if_neg h2] at h
      by_cases h3 : hasSubstr "schedule".data pl = true
      · rw [if_pos h3] at h; injection h with h; subst h; decide
      · rw [if_neg h3] at h
        by_cases h4 : (hasSubstr "app".data pl && hasSubstr "ux".data pl) = true
        · rw [if_pos h4] at h; injection h with h; subst h; decide
        · rw [if_neg h4] at h
          by_cases h5 : hasSubstr "hardware".data pl = true
          · rw [if_pos h5] at h; injection h with h; subst h; decide
          · rw [if_neg h5] at h
            by_cases h6 : hasSubstr "dial".data pl = true
            · rw [if_pos h6] at h; injection h with h; subst h; decide
            · rw [if_neg h6] at h
              by_cases h7 : (hasSubstr "energy".data pl || hasSubstr "usage".data pl) = true
              · rw [if_pos h7] at h; injection h with h; subst h; decide
              · rw [if_neg h7] at h
                by_cases h8 : (hasSubstr "auto-away".data pl || hasSubstr "away".data pl) = true
                · rw [if_pos h8] at h; injection h with h; subst h; decide
                · rw [if_neg h8] at h
                  by_cases h9 : (hasSubstr "mode".data pl || hasSubstr "control".data pl) = true
                  · rw [if_pos h9] at h; injection h with h; subst h; decide
                  · rw [if_neg h9] at h
                    by_cases h10 : (hasSubstr "lighting".data pl || hasSubstr "light".data pl) = true
                    · rw [if_pos h10] at h; injection h with h; subst h; decide
                    · rw [if_neg h10] at h
                      by_cases h11 : (hasSubstr "device".data pl || hasSubstr "pairing".data pl) = true
                      · rw [if_pos h11] at h; injection h with h; subst h; decide
                      · rw [if_neg h11] at h
                        by_cases h12 : (hasSubstr "partner".data pl || hasSubstr "tooling".data pl) = true
                        · rw [if_pos h12] at h; injection h with h; subst h; decide
                        · rw [if_neg h12] at h
                          exact Option.noConfusion h

theorem featureDefault_ne_empty (pn : Option String) : featureDefault pn ≠ "" := by
  cases pn with
  | none => decide
  | some p =>
    show (if p = "" then "Unknown" else p) ≠ ""
    by_cases hp : p = ""
    · rw [if_pos hp]; decide
    · rw [if_neg hp]; exact hp

theorem featureAreaOf_ne_empty (pn pt : Option String) : featureAreaOf pn pt ≠ "" := by
  cases pt with
  | none => exact featureDefault_ne_empty pn
  | some t =>
    show (if t = "" then featureDefault pn
      else match featureAreaOverride (toLowerL t.data) with
        | some v => v
        | none => featureDefault pn) ≠ ""
    by_cases ht : t = ""
    · rw [if_pos ht]; exact featureDefault_ne_empty pn
    · rw [if_neg ht]
      cases hov : featureAreaOverride (toLowerL t.data) with
      | some v => exact featureAreaOverride_ne_empty _ v hov
      | none => exact featureDefault_ne_empty pn

/-- C7: for every raw record the normalized `feature_area` is a nonempty
string; a matching parent-epic keyword rule overrides the project-name
default; and with no project and no matching parent keyword the result is
"Unknown". -/
theorem parse_ticket_feature_area_spec (r : RawTicket) :
    (parse_ticket r).feature_area ≠ "" ∧
    (∀ p v, r.parent = some p →
      featureAreaOverride (toLowerL p.title.data) = some v →
      (parse_ticket r).feature_area = v) ∧
    (r.project = none →
      (∀ p, r.parent = some p → featureAreaOverride (toLowerL p.title.data) = none) →
      (parse_ticket r).feature_area = "Unknown") := by
  have hfa : (parse_ticket r).feature_area =
      featureAreaOf r.project (r.parent.map (fun p => p.title)) := rfl
  refine ⟨?_, ?_, ?_⟩
  · rw [hfa]
    exact featureAreaOf_ne_empty _ _
  · intro p v hp hov
    rw [hfa, hp]
    show (if p.title = "" then featureDefault r.project
      else match featureAreaOverride (toLowerL p.title.data) with
        | some w => w
        | none => featureDefault r.project) = v
    by_cases ht : p.title = ""
    · rw [ht] at hov
      rw [show featureAreaOverride (toLowerL ("" : String).data) = none from by decide] at hov
      exact Option.noConfusion hov
    · rw [if_neg ht, hov]
  · intro hpn hall
    rw [hfa, hpn]
    cases hpt : r.parent with
    | none => rfl
    | some p =>
      show (if p.title = "" then featureDefault none
        else match featureAreaOverride (toLowerL p.title.data) with
          | some w => w
          | none => featureDefault none) = "Unknown"
      by_cases ht : p.title = ""
      · rw [if_pos ht]; rfl
      · rw [if_neg ht, hall p hpt]; rfl

/-- C7 (witness): a record with project "Some Project" and parent epic
titled "Thermal comfort epic" normalizes to the category of that rule,
overriding the project default, and the result is nonempty. -/
theorem parse_ticket_feature_area_spec_witness :
    (parse_ticket rawParented).feature_area = "Thermals & Comfort" ∧
    (parse_ticket rawParented).feature_area ≠ "" :=
  ⟨(parse_ticket_feature_area_spec rawParented).2.1
      { id := "pid", identifier := "QUI-9", title := "Thermal comfort epic" }
      "Thermals & Comfort" rfl (by decide),
    (parse_ticket_feature_area_spec rawParented).1⟩

/-- C8: the Recent Tickets view holds at most 10 entries, is ordered
non-increasingly by `created_at` (Python compares the ISO strings), and
consists of the most recently created tickets: the view plus some remainder
is a permutation of the full set, and every remainder ticket was created no
later than every ticket shown. -/
theorem recentTickets_spec (all_tickets : List Ticket) :
    (recentTickets all_tickets).length ≤ 10 ∧
    (recentTickets all_tickets).Pairwise
      (fun a b => strLeB b.created_at a.created_at = true) ∧
    ∃ rest, ((recentTickets all_tickets) ++ rest).Perm all_tickets ∧
      ∀ a ∈ recentTickets all_tickets, ∀ b ∈ rest,
        strLeB b.created_at a.created_at = true := by
  have hsorted : (sortLe createdDesc all_tickets).Pairwise
      (fun a b => createdDesc a b = true) :=
    sortLe_pairwise createdDesc createdDesc_total createdDesc_trans all_tickets
  refine ⟨List.length_take_le 10 _, ?_, ?_⟩
  · exact List.Pairwise.sublist (List.take_sublist 10 _) hsorted
  · refine ⟨(sortLe createdDesc all_tickets).drop 10, ?_, ?_⟩
    · show (List.take 10 (sortLe createdDesc all_tickets) ++
        List.drop 10 (sortLe createdDesc all_tickets)).Perm all_tickets
      rw [List.take_append_drop]
      exact sortLe_perm createdDesc all_tickets
    · have hps : (List.take 10 (sortLe createdDesc all_tickets) ++
          List.drop 10 (sortLe createdDesc all_tickets)).Pairwise
          (fun a b => createdDesc a b = true) := by
        rw [List.take_append_drop]
        exact hsorted
      intro a ha b hb
      exact (List.pairwise_append.mp hps).2.2 a ha b hb

/-- C9: for every raw record, the normalized ticket satisfies
`has_customer_feedback = true` iff `customer` is non-absent — both fields are
derived from the same customer match (`customer is not None`,
fetch_linear_data.py:385). -/
theorem parse_ticket_hcf_iff (r : RawTicket) :
    (parse_ticket r).has_customer_feedback = true ↔ (parse_ticket r).customer ≠ none := by
  rw [show (parse_ticket r).has_customer_feedback =
    ((parse_ticket r).customer).isSome from rfl]
  exact Option.isSome_iff_ne_none

/-- C10: on a description whose customer line is only a parenthesized email,
sanitization strips the whole matched value: `parse_ticket` yields the
non-null empty-string customer, and the ticket counts as customer-attributed. -/
theorem parse_ticket_empty_customer :
    (parse_ticket rawEmailOnly).customer = some "" ∧
    (parse_ticket rawEmailOnly).has_customer_feedback = true := by
  refine ⟨?_, ?_⟩ <;> decide
